import Mathlib

/-!
Verification development for the Unifier repository: a shallow embedding of
the table-recovery and wide-to-long reshape pipeline, namely
App/utils/data_transformer.py (DataTransformer.detect_location_columns and
DataTransformer.transform_wide_to_long),
App/utils/spreadsheet_transformer.py (SpreadsheetTransformer.recognize_core_blocks
and SpreadsheetTransformer._extract_core_block), and the excel path of
App/file_processor.py (FileProcessor._load_excel and FileProcessor._load_file).

DataFrames are modelled as a list of column labels and a list of value rows;
cells carry the object values the code manipulates: None, strings and numbers
(numbers as integers; NaN and None are collapsed into Val.na). Regular
expressions of the source are translated into executable character-list
matchers with the same anchoring, greediness and backtracking behaviour on
the relevant inputs.
-/

namespace Unifier

/-- Cell and value variant: openpyxl cells and pandas object values are None,
a string, or a number; missing values after alignment are collapsed into na. -/
inductive Val where
  | na : Val
  | str : String → Val
  | num : Int → Val
deriving DecidableEq

/-- A pandas DataFrame over object values: column labels plus rows of values. -/
structure DF where
  cols : List String
  rows : List (List Val)
deriving DecidableEq

/-! ## String helpers mirroring Python semantics -/

/-- ASCII lower-casing of one character, as str.lower and re.I act on the
ASCII column names and labels used by the code. -/
def lcChar (c : Char) : Char :=
  if 'A' ≤ c ∧ c ≤ 'Z' then Char.ofNat (c.toNat + 32) else c

/-- Python whitespace class (the set matched by the regex class for spaces and
stripped by str.strip): space, tab, newline, carriage return, form feed,
vertical tab. -/
def pySpace (c : Char) : Bool :=
  c = ' ' || c = '\t' || c = '\n' || c = '\r' || c = Char.ofNat 12 || c = Char.ofNat 11

/-- str.strip() on a character list. -/
def stripL (l : List Char) : List Char :=
  ((l.dropWhile pySpace).reverse.dropWhile pySpace).reverse

/-- str.strip() on a string. -/
def pyStrip (s : String) : String := String.mk (stripL s.toList)

/-- Case-insensitive prefix test: the pattern p is given in lower case. -/
def startsCI (s p : String) : Bool :=
  p.toList.isPrefixOf (s.toList.map lcChar)

/-- Substring containment of needle inside hay. -/
def containsSub (hay needle : List Char) : Bool :=
  (List.range (hay.length + 1)).any (fun i => needle.isPrefixOf (hay.drop i))

/-- The tail of a pattern of the form dot-star dollar under re.match: the
remaining text r is accepted iff it is newline-free, or consists of a
newline-free part followed by one final newline; the matched text is returned. -/
def stripDollarL (l : List Char) : Option (List Char) :=
  if l.all (fun c => c ≠ '\n') then some l
  else if l.getLast? = some '\n' && l.dropLast.all (fun c => c ≠ '\n') then some l.dropLast
  else none

/-! ## Column classification: DataTransformer.detect_location_columns -/

/-- One location pattern: a single uppercase ASCII letter, anchored both ends. -/
def locSingleUpper (l : List Char) : Bool :=
  match stripDollarL l with
  | some [c] => 'A' ≤ c && c ≤ 'Z'
  | _ => false

/-- One location pattern: an uppercase ASCII letter followed by one or more
digits, anchored both ends. -/
def locUpperDigits (l : List Char) : Bool :=
  match stripDollarL l with
  | some (c :: ds) => ('A' ≤ c && c ≤ 'Z') && !ds.isEmpty && ds.all Char.isDigit
  | _ => false

/-- The case-insensitive location keyword prefixes of the source. -/
def locKeywords : List String :=
  ["location", "loc", "store", "warehouse", "branch", "region", "site", "facility"]

/-- Case-insensitive anchored keyword pattern: keyword prefix then dot-star
dollar. -/
def matchKeyword (s : String) (kw : String) : Bool :=
  startsCI s kw && (stripDollarL (s.toList.drop kw.length)).isSome

/-- Does a column name match one of the location patterns of
detect_location_columns. -/
def isLocName (s : String) : Bool :=
  locSingleUpper s.toList || locUpperDigits s.toList ||
    locKeywords.any (matchKeyword s)

/-- The case-insensitive identifier keywords of the source; each pattern is
dot-star keyword dot-star under re.match, i.e. the keyword occurs inside the
first line of the lower-cased name. -/
def idKeywords : List String := ["code", "id", "descr", "item", "product", "sku"]

/-- Does a column name match one of the identifier patterns. -/
def isIdName (s : String) : Bool :=
  idKeywords.any (fun kw =>
    containsSub ((s.toList.map lcChar).takeWhile (fun c => c ≠ '\n')) kw.toList)

/-- Does a column name match the total pattern, the case-insensitive anchored
pattern with prefix total. -/
def isTotalName (s : String) : Bool :=
  startsCI s "total" && (stripDollarL (s.toList.drop 5)).isSome

/-- The three summary literals excluded from the default identifier rule. -/
def summaryLiterals : List String := ["Total", "Sum", "Grand Total"]

/-- One step of the classification loop of detect_location_columns over a
single column name. The accumulator holds the identifier list, the location
list and the last total column seen. -/
def detectStep (acc : List String × List String × Option String) (c : String) :
    List String × List String × Option String :=
  if isTotalName c then (acc.1, acc.2.1, some c)
  else if isLocName c then (acc.1, acc.2.1 ++ [c], acc.2.2)
  else if isIdName c then (acc.1 ++ [c], acc.2.1, acc.2.2)
  else if summaryLiterals.contains c then acc
  else (acc.1 ++ [c], acc.2.1, acc.2.2)

/-- The regex that strips a leading total from a total column name: total,
at least one whitespace, then the captured remainder up to a newline. -/
def stripTotalSpace (s : String) : Option String :=
  if startsCI s "total" then
    let r := s.toList.drop 5
    let ws := r.takeWhile pySpace
    if ws.isEmpty then none
    else some (String.mk ((r.drop ws.length).takeWhile (fun c => c ≠ '\n')))
  else none

/-- The derived value column name: present only when location columns exist;
from a total column the leading total is stripped, else the default Value. -/
def valueColOf (locs : List String) (tot : Option String) : Option String :=
  if locs.isEmpty then none
  else match tot with
    | some t =>
      match stripTotalSpace t with
      | some v => some v
      | none => some "Value"
    | none => some "Value"

/-- DataTransformer.detect_location_columns: returns the identifier columns,
the location columns and the derived value column name. -/
def detectLocationColumns (cols : List String) : List String × List String × Option String :=
  let acc := cols.foldl detectStep ([], [], none)
  (acc.1, acc.2.1, valueColOf acc.2.1 acc.2.2)

/-! ## DataFrame operations used by transform_wide_to_long -/

/-- Column lookup by label, first occurrence wins; value read positionally,
na when the row is exhausted. -/
def getCell : List String → List Val → String → Val
  | [], _, _ => Val.na
  | c :: cs, r, n => if c = n then r.headD Val.na else getCell cs r.tail n

/-- Row part of dropping every column whose label is in names. -/
def dropColsRow : List String → List Val → List String → List Val
  | [], _, _ => []
  | c :: cs, r, names =>
    if names.contains c then dropColsRow cs r.tail names
    else r.headD Val.na :: dropColsRow cs r.tail names

/-- DataFrame.drop of a list of column labels. -/
def dropCols (df : DF) (names : List String) : DF :=
  ⟨df.cols.filter (fun c => !names.contains c),
   df.rows.map (fun r => dropColsRow df.cols r names)⟩

/-- Truncate or na-pad a row to a given width, as pandas aligns rows to the
column axis. -/
def padTo (n : Nat) (r : List Val) : List Val :=
  r.take n ++ List.replicate (n - r.length) Val.na

/-- Row part of assigning a constant to an existing column label, replacing
every column carrying that label. -/
def setColRow : List String → List Val → String → Val → List Val
  | [], _, _, _ => []
  | c :: cs, r, n, v => (if c = n then v else r.headD Val.na) :: setColRow cs r.tail n v

/-- Column assignment of a constant: replace in place when the label exists,
else append a new column. -/
def setColConst (df : DF) (name : String) (v : Val) : DF :=
  if df.cols.contains name then
    ⟨df.cols, df.rows.map (fun r => setColRow df.cols r name v)⟩
  else ⟨df.cols ++ [name], df.rows.map (fun r => padTo df.cols.length r ++ [v])⟩

/-- Column assignment of a list of values, one per row (lengths agree at every
use site in the code). -/
def setColList (df : DF) (name : String) (vals : List Val) : DF :=
  if df.cols.contains name then
    ⟨df.cols, (df.rows.zip vals).map (fun p => setColRow df.cols p.1 name p.2)⟩
  else ⟨df.cols ++ [name], (df.rows.zip vals).map (fun p => padTo df.cols.length p.1 ++ [p.2])⟩

/-- pd.melt: the result has the id columns, then the variable-name column,
then the value column; for each value column (outer, left to right) and each
source row (inner, top to bottom) one record is emitted. This outer order
over value columns is the column-major emission of the pandas melt. -/
def melt (df : DF) (idVars valueVars : List String) (varName valName : String) : DF :=
  ⟨idVars ++ [varName, valName],
   valueVars.flatMap (fun v =>
     df.rows.map (fun r =>
       idVars.map (fun c => getCell df.cols r c) ++ [Val.str v, getCell df.cols r v]))⟩

/-- np.repeat: every element repeated k consecutive times. -/
def repeatEach (vals : List Val) (k : Nat) : List Val :=
  vals.flatMap (fun v => List.replicate k v)

/-- DataFrame.empty: true when either axis has length zero. -/
def dfEmpty (df : DF) : Bool := df.rows.isEmpty || df.cols.isEmpty

/-- The melt value-column name: the derived value column, with None and the
empty string both falling back to the literal Inventory Units, as the
or-fallback of the source does. -/
def vnameOf (valueCol : Option String) : String :=
  match valueCol with
  | none => "Inventory Units"
  | some v => if v = "" then "Inventory Units" else v

/-- Dropping the total columns: the column labels matching the total pattern
are removed when any exist, as the reshape does before melting. -/
def dropTotals (df : DF) : DF :=
  if (df.cols.filter isTotalName).isEmpty then df
  else dropCols df (df.cols.filter isTotalName)

/-- The body of transform_wide_to_long after the early returns: set the sheet
column aside, drop total columns, melt, filter missing and zero values, and
re-attach the sheet tags by repeat-then-truncate. -/
def transformMelt (df : DF) (idCols locCols : List String) (valueCol : Option String) : DF :=
  let hasSheet := df.cols.contains "_sheet"
  let sheetVals := df.rows.map (fun r => getCell df.cols r "_sheet")
  let df1 := if hasSheet then dropCols df ["_sheet"] else df
  let idCols1 := if hasSheet then idCols.filter (fun c => c ≠ "_sheet") else idCols
  let df2 := dropTotals df1
  let vname := vnameOf valueCol
  let melted := melt df2 idCols1 locCols "Locations" vname
  let r1 : DF := ⟨melted.cols, melted.rows.filter (fun r => !(getCell melted.cols r vname == Val.na))⟩
  let r2 : DF := ⟨r1.cols, r1.rows.filter (fun r => !(getCell r1.cols r vname == Val.num 0))⟩
  if hasSheet then
    setColList r2 "_sheet" ((repeatEach sheetVals locCols.length).take r2.rows.length)
  else r2

/-- DataTransformer.transform_wide_to_long. -/
def transformWideToLong (df : DF) : DF :=
  if dfEmpty df || decide (df.cols.length < 3) then df
  else
    let d := detectLocationColumns df.cols
    if d.2.1.isEmpty then df
    else transformMelt df d.1 d.2.1 d.2.2

/-! ## SpreadsheetTransformer._extract_core_block -/

/-- A cell counts as non-empty when it is neither None nor the empty string;
numbers, including zero, are non-empty. -/
def cellNonEmpty : Val → Bool
  | Val.na => false
  | Val.str s => s ≠ ""
  | Val.num _ => true

/-- Python truthiness of a cell value, as used when header names are built. -/
def cellTruthy : Val → Bool
  | Val.na => false
  | Val.str s => s ≠ ""
  | Val.num n => n ≠ 0

/-- Is the cell a string instance. -/
def isStrCell : Val → Bool
  | Val.str _ => true
  | _ => false

/-- The header test: at least two non-empty cells, every non-empty cell a
string. -/
def qualifiesHeader (row : List Val) : Bool :=
  decide (2 ≤ (row.filter cellNonEmpty).length) && (row.filter cellNonEmpty).all isStrCell

/-- The data-block row test: at least two non-empty cells. -/
def dataRowOk (row : List Val) : Bool :=
  decide (2 ≤ (row.filter cellNonEmpty).length)

/-- str() of a cell value. -/
def valToStr : Val → String
  | Val.na => "None"
  | Val.str s => s
  | Val.num n => toString n

/-- One header name: the stripped string form for truthy cells, the empty
string otherwise. -/
def headerName (c : Val) : String :=
  if cellTruthy c then pyStrip (valToStr c) else ""

/-- The header list built from the header row. -/
def mkHeaders (row : List Val) : List String := row.map headerName

/-- Index of the first row qualifying as header, scanning top to bottom. -/
def findHeaderIdx : List (List Val) → Option Nat
  | [] => none
  | r :: rs => if qualifiesHeader r then some 0 else (findHeaderIdx rs).map (· + 1)

/-! ### The context regex

re.match of label alternation Customer, Period or Event (case-insensitive),
then optional whitespace, an optional colon or dash, optional whitespace, and a
non-empty captured remainder that cannot cross a newline. The quantifiers are
greedy and backtrack from longest to shortest, the optional separator prefers
presence, and nothing follows the final capture, which therefore never
backtracks. -/

/-- The final capture of the context regex: the longest newline-free prefix,
which must be non-empty. -/
def dotPlus (cs : List Char) : Option (List Char) :=
  let g := cs.takeWhile (fun c => c ≠ '\n')
  if g.isEmpty then none else some g

/-- Backtracking loop for the second whitespace run: try consuming n spaces
first, then fewer, down to zero. -/
def tryCLoop (cs : List Char) : Nat → Option (List Char)
  | 0 => dotPlus cs
  | n + 1 =>
    match dotPlus (cs.drop (n + 1)) with
    | some g => some g
    | none => tryCLoop cs n

/-- Match the second whitespace run greedily, then the capture. -/
def tailAfterSep (cs : List Char) : Option (List Char) :=
  tryCLoop cs (cs.takeWhile pySpace).length

/-- Match the optional separator: prefer consuming a colon or dash, fall back
to the empty alternative. -/
def tryB (cs : List Char) : Option (List Char) :=
  match cs with
  | c :: rest =>
    if c = ':' || c = '-' then
      match tailAfterSep rest with
      | some g => some g
      | none => tailAfterSep cs
    else tailAfterSep cs
  | [] => tailAfterSep cs

/-- Backtracking loop for the first whitespace run. -/
def tryALoop (cs : List Char) : Nat → Option (List Char)
  | 0 => tryB cs
  | n + 1 =>
    match tryB (cs.drop (n + 1)) with
    | some g => some g
    | none => tryALoop cs n

/-- Match everything after the label: whitespace, optional separator,
whitespace, capture. -/
def matchTailL (cs : List Char) : Option (List Char) :=
  tryALoop cs (cs.takeWhile pySpace).length

/-- The context labels, in the alternation order of the pattern. -/
def ctxLabels : List String := ["Customer", "Period", "Event"]

/-- Match one label case-insensitively at the start of the cell; the first
capture keeps the original spelling of the cell. The labels are pairwise
non-prefixes, so at most one alternative fits. -/
def matchLabel (s : String) : Option (String × String) :=
  ctxLabels.findSome? (fun l =>
    if (l.toList.map lcChar).isPrefixOf (s.toList.map lcChar) then
      some (String.mk (s.toList.take l.length), String.mk (s.toList.drop l.length))
    else none)

/-- The whole context match of a cell: the stripped label as found in the
cell, and the stripped captured value. -/
def matchContext (s : String) : Option (String × String) :=
  match matchLabel s with
  | none => none
  | some gr =>
    match matchTailL gr.2.toList with
    | none => none
    | some g2 => some (pyStrip gr.1, String.mk (stripL g2))

/-- Dict assignment: replace the value in place when the exact key exists,
else append the pair, preserving insertion order. -/
def upsert (m : List (String × String)) (k v : String) : List (String × String) :=
  if m.any (fun p => p.1 = k) then
    m.map (fun p => if p.1 = k then (k, v) else p)
  else m ++ [(k, v)]

/-- Context extraction from the rows above the header: every string cell is
matched, later matches overwrite earlier ones with the same key. -/
def extractContext (rows : List (List Val)) : List (String × String) :=
  rows.foldl (fun ctx row =>
    row.foldl (fun ctx c =>
      match c with
      | Val.str s =>
        match matchContext s with
        | some kv => upsert ctx kv.1 kv.2
        | none => ctx
      | _ => ctx) ctx) []

/-- The core block: the header names and the data rows, each truncated to the
header length. -/
structure CoreBlock where
  headers : List String
  data : List (List Val)
deriving DecidableEq

/-- SpreadsheetTransformer._extract_core_block: find the header row, collect
the contiguous data block below it, and the context from the rows above. -/
def extractCoreBlock (grid : List (List Val)) : Option CoreBlock × List (String × String) :=
  match findHeaderIdx grid with
  | none => (none, [])
  | some i =>
    let headers := mkHeaders (grid.getD i [])
    let data := ((grid.drop (i + 1)).takeWhile dataRowOk).map (fun r => r.take headers.length)
    (some ⟨headers, data⟩, extractContext (grid.take i))

/-! ## SpreadsheetTransformer.recognize_core_blocks -/

/-- The per-sheet wide table of recognize_core_blocks, before the reshape: the
DataFrame built from the recovered header and data, with the context entries
and the sheet tag attached as columns. No deduplication is applied here. -/
def buildSheetDF (sheetName : String) (grid : List (List Val)) : Option DF :=
  match extractCoreBlock grid with
  | (none, _) => none
  | (some blk, ctx) =>
    let df0 : DF := ⟨blk.headers, blk.data.map (padTo blk.headers.length)⟩
    let df1 := ctx.foldl (fun d kv => setColConst d kv.1 (Val.str kv.2)) df0
    some (setColConst df1 "_sheet" (Val.str sheetName))

/-- pd.concat with ignore_index: the union of the column labels in order of
first appearance; every row is re-indexed to the union, missing labels filled
with na. -/
def pdConcat (dfs : List DF) : DF :=
  let allCols := dfs.foldl (fun acc d => acc ++ d.cols.filter (fun c => !acc.contains c)) []
  ⟨allCols, dfs.flatMap (fun d => d.rows.map (fun r => allCols.map (fun c => getCell d.cols r c)))⟩

/-- SpreadsheetTransformer.recognize_core_blocks over a workbook given as a
list of sheet name and grid pairs: per sheet, extract the core block, build
the wide table, reshape it; concatenate whatever accumulated, and return the
empty DataFrame when no sheet produced a block. -/
def recognizeCoreBlocks (wb : List (String × List (List Val))) : DF :=
  let blocks := wb.filterMap (fun sg => (buildSheetDF sg.1 sg.2).map transformWideToLong)
  match blocks with
  | [] => ⟨[], []⟩
  | _ => pdConcat blocks

/-! ## FileProcessor._load_excel and _load_file (excel path)

The raw per-sheet reader output is already tabular; modelling starts at the
point where the code owns the data: deduplicate each sheet header, tag the
sheet, concatenate, then apply the reshape. -/

/-- Bump the occurrence counter of a name. -/
def bumpSeen (seen : List (String × Nat)) (c : String) : List (String × Nat) :=
  seen.map (fun p => if p.1 = c then (p.1, p.2 + 1) else p)

/-- The deduplication loop: first occurrence kept, the k-th repeat renamed
with suffix underscore k. -/
def dedupeGo : List String → List (String × Nat) → List String
  | [], _ => []
  | c :: rest, seen =>
    match seen.find? (fun p => p.1 = c) with
    | some p => (c ++ "_" ++ toString (p.2 + 1)) :: dedupeGo rest (bumpSeen seen c)
    | none => c :: dedupeGo rest ((c, 0) :: seen)

/-- Header deduplication of _load_excel. The code only rewrites headers that
contain duplicates, which coincides with always running the rewrite, since a
duplicate-free header is returned unchanged. -/
def dedupeCols (cols : List String) : List String := dedupeGo cols []

/-- _load_excel: per sheet, deduplicate the header and append the sheet tag
column, then concatenate all sheets; None when no sheet was readable, which
the code turns into a raised error. -/
def loadExcel (sheets : List (String × DF)) : Option DF :=
  match sheets.map (fun sd => setColConst ⟨dedupeCols sd.2.cols, sd.2.rows⟩ "_sheet" (Val.str sd.1)) with
  | [] => none
  | dfs => some (pdConcat dfs)

/-- _load_file for the excel type: load and then reshape. -/
def loadFileExcel (sheets : List (String × DF)) : Option DF :=
  (loadExcel sheets).map transformWideToLong

/-! ## Per-name classification and its relation to detect_location_columns -/

/-- The role a single column name receives from the classification loop:
the total pattern first, then location patterns, then identifier patterns,
then the excluded summary literals, then identifier by default. A name is
excluded exactly when it is one of the summary literals and matched no
earlier rule; such a name is appended to no output. -/
inductive Role where
  | identifier : Role
  | location : Role
  | total : Role
  | excluded : Role
deriving DecidableEq

/-- The per-name classification function, the body of the loop of
detect_location_columns read as a function of one name. -/
def classifyRole (c : String) : Role :=
  if isTotalName c then Role.total
  else if isLocName c then Role.location
  else if isIdName c then Role.identifier
  else if summaryLiterals.contains c then Role.excluded
  else Role.identifier

/-- The last total-matching name of a list, defaulting to a prior value:
the overwrite semantics of the total variable in the loop. -/
def lastTotOr (cols : List String) (t : Option String) : Option String :=
  match (cols.filter isTotalName).getLast? with
  | some x => some x
  | none => t

lemma lastTotOr_cons (c : String) (cs : List String) (t : Option String) :
    lastTotOr (c :: cs) t = lastTotOr cs (if isTotalName c then some c else t) := by
  by_cases h : isTotalName c = true
  · simp only [lastTotOr, List.filter_cons, h, if_true]
    cases hl : cs.filter isTotalName with
    | nil => simp [hl]
    | cons b l =>
      simp only [hl, List.getLast?_cons_cons]
      cases hgl : (b :: l).getLast? with
      | none => exact absurd hgl (by simp)
      | some x => simp [hgl]
  · simp only [lastTotOr, List.filter_cons, h]
    simp [h]

lemma foldl_detectStep_eq (cols : List String) :
    ∀ acc : List String × List String × Option String,
      cols.foldl detectStep acc =
        (acc.1 ++ cols.filter (fun c => classifyRole c == Role.identifier),
         acc.2.1 ++ cols.filter (fun c => classifyRole c == Role.location),
         lastTotOr cols acc.2.2) := by
  induction cols with
  | nil => intro acc; simp [lastTotOr]
  | cons c cs ih =>
    intro acc
    rw [List.foldl_cons, ih]
    rw [lastTotOr_cons]
    by_cases h1 : isTotalName c = true
    · have hr : classifyRole c = Role.total := by simp [classifyRole, h1]
      simp [detectStep, h1, List.filter_cons, hr]
    · by_cases h2 : isLocName c = true
      · have hr : classifyRole c = Role.location := by simp [classifyRole, h1, h2]
        simp [detectStep, h1, h2, List.filter_cons, hr]
      · by_cases h3 : isIdName c = true
        · have hr : classifyRole c = Role.identifier := by simp [classifyRole, h1, h2, h3]
          simp [detectStep, h1, h2, h3, List.filter_cons, hr]
        · by_cases h4 : c ∈ summaryLiterals
          · have hr : classifyRole c = Role.excluded := by simp [classifyRole, h1, h2, h3, h4]
            simp [detectStep, h1, h2, h3, h4, List.filter_cons, hr]
          · have hr : classifyRole c = Role.identifier := by simp [classifyRole, h1, h2, h3, h4]
            simp [detectStep, h1, h2, h3, h4, List.filter_cons, hr]

lemma detect_ids_eq (cols : List String) :
    (detectLocationColumns cols).1 = cols.filter (fun c => classifyRole c == Role.identifier) := by
  simp [detectLocationColumns, foldl_detectStep_eq]

lemma detect_locs_eq (cols : List String) :
    (detectLocationColumns cols).2.1 = cols.filter (fun c => classifyRole c == Role.location) := by
  simp [detectLocationColumns, foldl_detectStep_eq]

lemma loc_role_of_mem {cols : List String} {v : String}
    (hv : v ∈ (detectLocationColumns cols).2.1) : classifyRole v = Role.location := by
  rw [detect_locs_eq] at hv
  have := (List.mem_filter.mp hv).2
  simpa using this

lemma loc_not_total {cols : List String} {v : String}
    (hv : v ∈ (detectLocationColumns cols).2.1) : isTotalName v = false := by
  have h := loc_role_of_mem hv
  by_cases ht : isTotalName v = true
  · simp [classifyRole, ht] at h
  · simpa using ht

lemma loc_not_sheet {cols : List String} {v : String}
    (hv : v ∈ (detectLocationColumns cols).2.1) : v ≠ "_sheet" := by
  intro he
  have h := loc_role_of_mem hv
  rw [he] at h
  have : classifyRole "_sheet" = Role.identifier := by decide
  rw [this] at h
  cases h

/-! ## Lookup and drop lemmas -/

lemma getCell_dropColsRow (names : List String) (n : String) (hn : ¬ n ∈ names) :
    ∀ (cols : List String) (r : List Val),
      getCell (cols.filter (fun c => !names.contains c)) (dropColsRow cols r names) n
        = getCell cols r n := by
  intro cols
  induction cols with
  | nil => intro r; rfl
  | cons c cs ih =>
    intro r
    by_cases hc : c ∈ names
    · have hcn : ¬ c = n := fun h => hn (h ▸ hc)
      have h1 : dropColsRow (c :: cs) r names = dropColsRow cs r.tail names := by
        simp [dropColsRow, hc]
      have h2 : (c :: cs).filter (fun x => !names.contains x)
          = cs.filter (fun x => !names.contains x) := by
        simp [List.filter_cons, hc]
      rw [h1, h2, ih r.tail]
      simp [getCell, hcn]
    · have h1 : dropColsRow (c :: cs) r names = r.headD Val.na :: dropColsRow cs r.tail names := by
        simp [dropColsRow, hc]
      have h2 : (c :: cs).filter (fun x => !names.contains x)
          = c :: cs.filter (fun x => !names.contains x) := by
        simp [List.filter_cons, hc]
      rw [h1, h2]
      by_cases hcn : c = n
      · simp [getCell, hcn]
      · simp only [getCell, hcn, if_false, List.tail_cons]
        exact ih r.tail

lemma getCell_append_last (ids : List String) (xs : List Val) (a b : String) (y z : Val)
    (hlen : ids.length = xs.length) (hb1 : ¬ b ∈ ids) (hb2 : ¬ b = a) :
    getCell (ids ++ [a, b]) (xs ++ [y, z]) b = z := by
  induction ids generalizing xs with
  | nil =>
    cases xs with
    | nil =>
      have hab : ¬ a = b := fun h => hb2 h.symm
      simp [getCell, hab]
    | cons x xs => simp at hlen
  | cons c cs ih =>
    cases xs with
    | nil => simp at hlen
    | cons x xs =>
      have hcb : ¬ c = b := fun h => hb1 (by rw [h]; exact List.mem_cons_self b cs)
      have hb1' : ¬ b ∈ cs := fun h => hb1 (List.mem_cons_of_mem _ h)
      have hlen' : cs.length = xs.length := by simpa using hlen
      simp only [List.cons_append, getCell, hcb, if_false, List.tail_cons]
      exact ih xs hlen' hb1'

lemma length_flatMap_const {α β : Type} (l : List α) (f : α → List β) (n : Nat)
    (h : ∀ x ∈ l, (f x).length = n) : (l.flatMap f).length = l.length * n := by
  induction l with
  | nil => simp
  | cons a l ih =>
    have ha := h a (List.mem_cons_self a l)
    have ih2 := ih (fun x hx => h x (List.mem_cons_of_mem a hx))
    simp only [List.flatMap_cons, List.length_append, ha, ih2, List.length_cons]
    ring

lemma repeatEach_length (vals : List Val) (k : Nat) :
    (repeatEach vals k).length = vals.length * k :=
  length_flatMap_const vals _ k (fun x _ => List.length_replicate k x)

lemma setColList_length (df : DF) (name : String) (vals : List Val) :
    (setColList df name vals).rows.length = min df.rows.length vals.length := by
  unfold setColList
  split <;> simp [List.length_zip]

lemma dropCols_rows_length (df : DF) (names : List String) :
    (dropCols df names).rows.length = df.rows.length := by
  simp [dropCols]

lemma dropTotals_rows_length (df : DF) : (dropTotals df).rows.length = df.rows.length := by
  unfold dropTotals
  split
  · rfl
  · simp [dropCols]

lemma dropCols_clean (df : DF) (names : List String) (P : Val → Prop) (locs : List String)
    (hnot : ∀ v ∈ locs, ¬ v ∈ names)
    (hclean : ∀ r ∈ df.rows, ∀ v ∈ locs, P (getCell df.cols r v)) :
    ∀ r2 ∈ (dropCols df names).rows, ∀ v ∈ locs, P (getCell (dropCols df names).cols r2 v) := by
  intro r2 hr2 v hv
  simp only [dropCols, List.mem_map] at hr2
  obtain ⟨r, hr, rfl⟩ := hr2
  show P (getCell (df.cols.filter (fun c => !names.contains c)) (dropColsRow df.cols r names) v)
  rw [getCell_dropColsRow names v (hnot v hv)]
  exact hclean r hr v hv

lemma dropTotals_clean (df : DF) (P : Val → Prop) (locs : List String)
    (hnotTot : ∀ v ∈ locs, isTotalName v = false)
    (hclean : ∀ r ∈ df.rows, ∀ v ∈ locs, P (getCell df.cols r v)) :
    ∀ r2 ∈ (dropTotals df).rows, ∀ v ∈ locs, P (getCell (dropTotals df).cols r2 v) := by
  unfold dropTotals
  split
  · exact hclean
  · apply dropCols_clean df _ P locs _ hclean
    intro v hv hmem
    have h2 := (List.mem_filter.mp hmem).2
    rw [hnotTot v hv] at h2
    cases h2

lemma melt_value_clean (df2 : DF) (idCols1 locCols : List String) (vname : String)
    (hb1 : ¬ vname ∈ idCols1) (hb2 : ¬ vname = "Locations")
    (hval : ∀ r ∈ df2.rows, ∀ v ∈ locCols,
        getCell df2.cols r v ≠ Val.na ∧ getCell df2.cols r v ≠ Val.num 0) :
    ∀ m ∈ (melt df2 idCols1 locCols "Locations" vname).rows,
      getCell (idCols1 ++ ["Locations", vname]) m vname ≠ Val.na ∧
      getCell (idCols1 ++ ["Locations", vname]) m vname ≠ Val.num 0 := by
  intro m hm
  simp only [melt, List.mem_flatMap, List.mem_map] at hm
  obtain ⟨v, hv, r, hr, rfl⟩ := hm
  have hcell :
      getCell (idCols1 ++ ["Locations", vname])
        ((idCols1.map (fun c => getCell df2.cols r c)) ++ [Val.str v, getCell df2.cols r v]) vname
        = getCell df2.cols r v :=
    getCell_append_last idCols1 _ "Locations" vname _ _ (by simp) hb1 hb2
  rw [hcell]
  exact hval r hr v hv

lemma melted_filters_eq (df2 : DF) (idCols1 locCols : List String) (vname : String)
    (hb1 : ¬ vname ∈ idCols1) (hb2 : ¬ vname = "Locations")
    (hval : ∀ r ∈ df2.rows, ∀ v ∈ locCols,
        getCell df2.cols r v ≠ Val.na ∧ getCell df2.cols r v ≠ Val.num 0) :
    ((melt df2 idCols1 locCols "Locations" vname).rows.filter
        (fun r => !(getCell (idCols1 ++ ["Locations", vname]) r vname == Val.na))).filter
        (fun r => !(getCell (idCols1 ++ ["Locations", vname]) r vname == Val.num 0))
      = (melt df2 idCols1 locCols "Locations" vname).rows := by
  have hall := melt_value_clean df2 idCols1 locCols vname hb1 hb2 hval
  have h1 : (melt df2 idCols1 locCols "Locations" vname).rows.filter
      (fun r => !(getCell (idCols1 ++ ["Locations", vname]) r vname == Val.na))
      = (melt df2 idCols1 locCols "Locations" vname).rows :=
    List.filter_eq_self.mpr (fun m hm => by simp [(hall m hm).1])
  rw [h1]
  exact List.filter_eq_self.mpr (fun m hm => by simp [(hall m hm).2])

lemma melt_cols (df2 : DF) (idCols1 locCols : List String) (varName vname : String) :
    (melt df2 idCols1 locCols varName vname).cols = idCols1 ++ [varName, vname] := rfl

lemma melt_rows_length (df2 : DF) (idCols1 locCols : List String) (varName vname : String) :
    (melt df2 idCols1 locCols varName vname).rows.length = locCols.length * df2.rows.length :=
  length_flatMap_const _ _ _ (fun v _ => by simp)

lemma transformMelt_len (df : DF) (idCols locCols : List String) (valueCol : Option String)
    (hb1 : ¬ vnameOf valueCol ∈ idCols) (hb2 : ¬ vnameOf valueCol = "Locations")
    (hnotTot : ∀ v ∈ locCols, isTotalName v = false)
    (hnotSheet : ∀ v ∈ locCols, ¬ v = "_sheet")
    (hclean : ∀ r ∈ df.rows, ∀ v ∈ locCols,
        getCell df.cols r v ≠ Val.na ∧ getCell df.cols r v ≠ Val.num 0) :
    (transformMelt df idCols locCols valueCol).rows.length
      = df.rows.length * locCols.length := by
  by_cases hs : df.cols.contains "_sheet" = true
  · have hb1' : ¬ vnameOf valueCol ∈ idCols.filter (fun c => c ≠ "_sheet") :=
      fun h => hb1 (List.mem_of_mem_filter h)
    have hval2 := dropTotals_clean (dropCols df ["_sheet"])
        (fun x => x ≠ Val.na ∧ x ≠ Val.num 0) locCols hnotTot
        (dropCols_clean df ["_sheet"] (fun x => x ≠ Val.na ∧ x ≠ Val.num 0) locCols
          (fun v hv => by simpa using hnotSheet v hv) hclean)
    have hfil := melted_filters_eq (dropTotals (dropCols df ["_sheet"]))
        (idCols.filter (fun c => c ≠ "_sheet")) locCols (vnameOf valueCol) hb1' hb2 hval2
    have hmlen := melt_rows_length (dropTotals (dropCols df ["_sheet"]))
        (idCols.filter (fun c => c ≠ "_sheet")) locCols "Locations" (vnameOf valueCol)
    rw [dropTotals_rows_length, dropCols_rows_length] at hmlen
    simp only [transformMelt, hs, if_true]
    rw [melt_cols]
    rw [hfil, setColList_length, List.length_take, hmlen, repeatEach_length, List.length_map]
    rw [Nat.mul_comm locCols.length df.rows.length]
    simp [Nat.min_self]
  · have hs2 : df.cols.contains "_sheet" = false := by simpa using hs
    have hval0 := dropTotals_clean df (fun x => x ≠ Val.na ∧ x ≠ Val.num 0) locCols hnotTot hclean
    have hfil0 := melted_filters_eq (dropTotals df) idCols locCols (vnameOf valueCol) hb1 hb2 hval0
    have hmlen0 := melt_rows_length (dropTotals df) idCols locCols "Locations" (vnameOf valueCol)
    rw [dropTotals_rows_length] at hmlen0
    simp only [transformMelt, hs2, Bool.false_eq_true, if_false]
    rw [melt_cols]
    rw [hfil0, hmlen0, Nat.mul_comm]

lemma transformMelt_rows_noSheet (df : DF) (idCols locCols : List String) (valueCol : Option String)
    (hs : df.cols.contains "_sheet" = false)
    (hb1 : ¬ vnameOf valueCol ∈ idCols) (hb2 : ¬ vnameOf valueCol = "Locations")
    (hnotTot : ∀ v ∈ locCols, isTotalName v = false)
    (hclean : ∀ r ∈ df.rows, ∀ v ∈ locCols,
        getCell df.cols r v ≠ Val.na ∧ getCell df.cols r v ≠ Val.num 0) :
    (transformMelt df idCols locCols valueCol).rows
      = (melt (dropTotals df) idCols locCols "Locations" (vnameOf valueCol)).rows := by
  have hval0 := dropTotals_clean df (fun x => x ≠ Val.na ∧ x ≠ Val.num 0) locCols hnotTot hclean
  have hfil0 := melted_filters_eq (dropTotals df) idCols locCols (vnameOf valueCol) hb1 hb2 hval0
  simp only [transformMelt, hs, Bool.false_eq_true, if_false]
  rw [melt_cols]
  exact hfil0

/-! ## Header locator lemmas -/

lemma findHeaderIdx_none_iff (grid : List (List Val)) :
    findHeaderIdx grid = none ↔ ∀ row ∈ grid, qualifiesHeader row = false := by
  induction grid with
  | nil => simp [findHeaderIdx]
  | cons r rs ih =>
    by_cases hq : qualifiesHeader r = true
    · simp [findHeaderIdx, hq]
    · have hq2 : qualifiesHeader r = false := by simpa using hq
      simp [findHeaderIdx, hq2, ih]

lemma findHeaderIdx_some_spec (grid : List (List Val)) :
    ∀ i, findHeaderIdx grid = some i →
      i < grid.length ∧ qualifiesHeader (grid.getD i []) = true ∧
        ∀ j, j < i → qualifiesHeader (grid.getD j []) = false := by
  induction grid with
  | nil => intro i h; cases h
  | cons r rs ih =>
    intro i h
    by_cases hq : qualifiesHeader r = true
    · simp [findHeaderIdx, hq] at h
      subst h
      exact ⟨by simp, by simpa using hq, fun j hj => absurd hj (by omega)⟩
    · have hq2 : qualifiesHeader r = false := by simpa using hq
      simp [findHeaderIdx, hq2] at h
      obtain ⟨i2, hi2, rfl⟩ := h
      obtain ⟨hlen, hqual, hbefore⟩ := ih i2 hi2
      refine ⟨by simpa using hlen, by simpa using hqual, ?_⟩
      intro j hj
      cases j with
      | zero => simpa using hq2
      | succ j2 => simpa using hbefore j2 (by omega)

/-! ## Aggregator lemmas -/

lemma buildSheetDF_none {name : String} {grid : List (List Val)}
    (h : findHeaderIdx grid = none) : buildSheetDF name grid = none := by
  simp [buildSheetDF, extractCoreBlock, h]

lemma recognizeCoreBlocks_empty (wb : List (String × List (List Val)))
    (h : ∀ sg ∈ wb, findHeaderIdx sg.2 = none) :
    recognizeCoreBlocks wb = ⟨[], []⟩ := by
  have hnil : wb.filterMap (fun sg => (buildSheetDF sg.1 sg.2).map transformWideToLong) = [] :=
    List.filterMap_eq_nil_iff.mpr (fun sg hsg => by rw [buildSheetDF_none (h sg hsg)]; rfl)
  simp only [recognizeCoreBlocks, hnil]

lemma buildSheetDF_cols (name : String) (grid : List (List Val)) (blk : CoreBlock)
    (hblk : (extractCoreBlock grid).1 = some blk)
    (hctx : (extractCoreBlock grid).2 = [])
    (hsheet : ¬ "_sheet" ∈ blk.headers) :
    ∃ d : DF, buildSheetDF name grid = some d ∧ d.cols = blk.headers ++ ["_sheet"] := by
  have hpair : extractCoreBlock grid = (some blk, []) := Prod.ext_iff.mpr ⟨hblk, hctx⟩
  have hc : blk.headers.contains "_sheet" = false := by simpa using hsheet
  refine ⟨setColConst ⟨blk.headers, blk.data.map (padTo blk.headers.length)⟩ "_sheet"
      (Val.str name), ?_, ?_⟩
  · simp only [buildSheetDF, hpair, List.foldl_nil]
  · simp [setColConst, hc, hsheet]

lemma transform_entry (df : DF) (h3 : 3 ≤ df.cols.length) (hne : df.rows ≠ [])
    (hlocs : (detectLocationColumns df.cols).2.1 ≠ []) :
    transformWideToLong df = transformMelt df (detectLocationColumns df.cols).1
      (detectLocationColumns df.cols).2.1 (detectLocationColumns df.cols).2.2 := by
  have hce : df.cols.isEmpty = false := by
    cases hcc : df.cols with
    | nil => rw [hcc] at h3; simp at h3
    | cons a l => simp
  have hre : df.rows.isEmpty = false := by simpa [List.isEmpty_iff] using hne
  have hde : dfEmpty df = false := by simp [dfEmpty, hre, hce]
  have hlt : ¬ df.cols.length < 3 := by omega
  have hli : (detectLocationColumns df.cols).2.1.isEmpty = false := by
    simpa [List.isEmpty_iff] using hlocs
  simp only [transformWideToLong, hde, decide_eq_false hlt, Bool.or_self, Bool.false_eq_true,
    if_false, hli]

/-! ## Claim theorems -/

/-- Claim C1 (code bug demonstrated): loading an excel workbook of two sheets
and reshaping the combined table misaligns the sheet tags. The melt emits in
column-major order (X A, Y A, X B, Y B), while the repeat-then-truncate step
produces tags S1 S1 S2 S2; the emitted record with Item Y and Locations A
originates from the sheet-2 row yet carries tag S1, and the record with Item X
and Locations B originates from sheet 1 yet carries tag S2. This contradicts
the claim that every emitted record carries the tag of the source row that
produced it. -/
theorem c1_sheet_tag_misalignment :
    loadFileExcel
      [("S1", ⟨["Item", "A", "B"], [[Val.str "X", Val.num 1, Val.num 5]]⟩),
       ("S2", ⟨["Item", "A", "B"], [[Val.str "Y", Val.num 7, Val.num 8]]⟩)] =
    some ⟨["Item", "Locations", "Value", "_sheet"],
      [[Val.str "X", Val.str "A", Val.num 1, Val.str "S1"],
       [Val.str "Y", Val.str "A", Val.num 7, Val.str "S1"],
       [Val.str "X", Val.str "B", Val.num 5, Val.str "S2"],
       [Val.str "Y", Val.str "B", Val.num 8, Val.str "S2"]]⟩ := by decide

/-- Claim C2, counterexample: the claim predicts row-major emission (all
location records of source row X first, then those of row Y); for the wide
table with rows X and Y and location columns A and B the reshape does not
produce that order. -/
theorem c2_counterexample :
    (transformWideToLong ⟨["Item", "A", "B"],
        [[Val.str "X", Val.num 1, Val.num 2], [Val.str "Y", Val.num 3, Val.num 4]]⟩).rows ≠
      [[Val.str "X", Val.str "A", Val.num 1],
       [Val.str "X", Val.str "B", Val.num 2],
       [Val.str "Y", Val.str "A", Val.num 3],
       [Val.str "Y", Val.str "B", Val.num 4]] := by decide

/-- Claim C2, amended: for a wide table with at least 3 columns, at least one
location column, no sheet column, clean values, and no name collision between
the derived melt column names and the identifier columns, the reshape emits in
column-major order over location columns: for each location column, left to
right, one record per source row, top to bottom. -/
theorem c2_emission_order_amended (df : DF) (h3 : 3 ≤ df.cols.length)
    (hsheet : df.cols.contains "_sheet" = false)
    (hlocs : (detectLocationColumns df.cols).2.1 ≠ [])
    (hv1 : ¬ vnameOf (detectLocationColumns df.cols).2.2 ∈ (detectLocationColumns df.cols).1)
    (hv2 : ¬ vnameOf (detectLocationColumns df.cols).2.2 = "Locations")
    (hclean : ∀ r ∈ df.rows, ∀ v ∈ (detectLocationColumns df.cols).2.1,
        getCell df.cols r v ≠ Val.na ∧ getCell df.cols r v ≠ Val.num 0) :
    (transformWideToLong df).rows =
      (detectLocationColumns df.cols).2.1.flatMap (fun v =>
        (dropTotals df).rows.map (fun r =>
          ((detectLocationColumns df.cols).1.map (fun c => getCell (dropTotals df).cols r c))
            ++ [Val.str v, getCell (dropTotals df).cols r v])) := by
  by_cases hne : df.rows = []
  · have hde : dfEmpty df = true := by simp [dfEmpty, hne]
    have hlen0 : (dropTotals df).rows.length = 0 := by rw [dropTotals_rows_length, hne]; rfl
    have hrows : (dropTotals df).rows = [] := List.length_eq_zero.mp hlen0
    have hconst : ∀ l : List String, l.flatMap (fun _ => ([] : List (List Val))) = [] := by
      intro l; induction l with
      | nil => rfl
      | cons a t ih => simp [ih]
    simp [transformWideToLong, hde, hne, hrows, hconst]
  · rw [transform_entry df h3 hne hlocs]
    rw [transformMelt_rows_noSheet df _ _ _ hsheet hv1 hv2
      (fun v hv => loc_not_total hv) hclean]
    rfl

/-- Witness for the amended C2 theorem at a concrete two-row, two-location
table. -/
theorem c2_witness :
    (transformWideToLong ⟨["Item", "A", "B"],
        [[Val.str "X", Val.num 1, Val.num 2], [Val.str "Y", Val.num 3, Val.num 4]]⟩).rows =
      (detectLocationColumns ["Item", "A", "B"]).2.1.flatMap (fun v =>
        (dropTotals ⟨["Item", "A", "B"],
            [[Val.str "X", Val.num 1, Val.num 2], [Val.str "Y", Val.num 3, Val.num 4]]⟩).rows.map
          (fun r =>
            ((detectLocationColumns ["Item", "A", "B"]).1.map (fun c =>
                getCell (dropTotals ⟨["Item", "A", "B"],
                  [[Val.str "X", Val.num 1, Val.num 2], [Val.str "Y", Val.num 3, Val.num 4]]⟩).cols r c))
              ++ [Val.str v, getCell (dropTotals ⟨["Item", "A", "B"],
                  [[Val.str "X", Val.num 1, Val.num 2], [Val.str "Y", Val.num 3, Val.num 4]]⟩).cols r v])) :=
  c2_emission_order_amended
    ⟨["Item", "A", "B"], [[Val.str "X", Val.num 1, Val.num 2], [Val.str "Y", Val.num 3, Val.num 4]]⟩
    (by decide) (by decide) (by decide) (by decide) (by decide) (by decide)

/-- Claim C3, counterexample: on the input consisting of the single column
name Sum, the name receives no role at all: it is in neither output list and
does not match the total rule, so it does not receive role Total as the claim
states. -/
theorem c3_counterexample :
    ¬ ("Sum" ∈ (detectLocationColumns ["Sum"]).1) ∧
    ¬ ("Sum" ∈ (detectLocationColumns ["Sum"]).2.1) ∧
    isTotalName "Sum" = false ∧ (detectLocationColumns ["Sum"]).2.2 = none := by decide

/-- Claim C3, amended: classification is deterministic and assigns every name
exactly one role among identifier, location, total and excluded; membership in
the identifier and location outputs coincides with the per-name role, the two
outputs are disjoint, the literal Total matches the total-prefix rule, and the
literals Sum and Grand Total, matched by no earlier rule, are excluded: they
receive no role and are dropped from the outputs, not classified Total. -/
theorem c3_classification_amended (cols : List String) (c : String) (hc : c ∈ cols) :
    (c ∈ (detectLocationColumns cols).1 ↔ classifyRole c = Role.identifier) ∧
    (c ∈ (detectLocationColumns cols).2.1 ↔ classifyRole c = Role.location) ∧
    ¬ (c ∈ (detectLocationColumns cols).1 ∧ c ∈ (detectLocationColumns cols).2.1) ∧
    classifyRole "Total" = Role.total ∧ classifyRole "Sum" = Role.excluded ∧
    classifyRole "Grand Total" = Role.excluded := by
  rw [detect_ids_eq, detect_locs_eq]
  refine ⟨?_, ?_, ?_, by decide, by decide, by decide⟩
  · simp [List.mem_filter, hc]
  · simp [List.mem_filter, hc]
  · rintro ⟨h1, h2⟩
    have e1 := (List.mem_filter.mp h1).2
    have e2 := (List.mem_filter.mp h2).2
    simp only [beq_iff_eq] at e1 e2
    rw [e1] at e2
    cases e2

/-- Witness for the amended C3 theorem at the column list Sum, A and the
name A. -/
theorem c3_witness :
    ("A" ∈ (detectLocationColumns ["Sum", "A"]).1 ↔ classifyRole "A" = Role.identifier) ∧
    ("A" ∈ (detectLocationColumns ["Sum", "A"]).2.1 ↔ classifyRole "A" = Role.location) ∧
    ¬ ("A" ∈ (detectLocationColumns ["Sum", "A"]).1 ∧
        "A" ∈ (detectLocationColumns ["Sum", "A"]).2.1) ∧
    classifyRole "Total" = Role.total ∧ classifyRole "Sum" = Role.excluded ∧
    classifyRole "Grand Total" = Role.excluded :=
  c3_classification_amended ["Sum", "A"] "A" (by decide)

/-- Claim C4, counterexample: a sheet whose header row repeats the name Code
is turned into a wide table whose columns are Code, Code and the sheet tag:
the header reaches classification with duplicate names, no deduplication runs
in the sheet aggregator. -/
theorem c4_counterexample :
    buildSheetDF "S1" [[Val.str "Code", Val.str "Code"]]
        = some ⟨["Code", "Code", "_sheet"], []⟩ ∧
    ¬ (["Code", "Code", "_sheet"] : List String).Nodup := by decide

/-- Claim C4, amended: the sheet aggregator runs no column deduplication; for
a sheet with an empty context and a recovered header not containing the sheet
tag label, the wide table columns are exactly the recovered header, verbatim
with any duplicate or empty names, followed by the sheet tag column. The
deduplicator exists only in the separate pandas excel loader. -/
theorem c4_header_no_dedup_amended (name : String) (grid : List (List Val)) (blk : CoreBlock)
    (hblk : (extractCoreBlock grid).1 = some blk)
    (hctx : (extractCoreBlock grid).2 = [])
    (hsheet : ¬ "_sheet" ∈ blk.headers) :
    ∃ d : DF, buildSheetDF name grid = some d ∧ d.cols = blk.headers ++ ["_sheet"] :=
  buildSheetDF_cols name grid blk hblk hctx hsheet

/-- Witness for the amended C4 theorem at the duplicate-header sheet. -/
theorem c4_witness :
    ∃ d : DF, buildSheetDF "S1" [[Val.str "Code", Val.str "Code"]] = some d ∧
      d.cols = ["Code", "Code"] ++ ["_sheet"] :=
  c4_header_no_dedup_amended "S1" [[Val.str "Code", Val.str "Code"]]
    ⟨["Code", "Code"], []⟩ (by decide) (by decide) (by decide)

/-- Claim C5, counterexample: a workbook whose only sheet has no detectable
header produces zero usable sheets, and the aggregator returns the plain
empty DataFrame; it signals no fatal condition, the function returns
normally. -/
theorem c5_counterexample :
    recognizeCoreBlocks [("S1", [[Val.num 1, Val.num 2]])] = ⟨[], []⟩ ∧
    (extractCoreBlock [[Val.num 1, Val.num 2]]).1 = none := by decide

/-- Claim C5, amended: when no sheet of the workbook yields a header row, the
aggregation returns the empty DataFrame silently rather than signalling a
fatal condition. -/
theorem c5_empty_silent_amended (wb : List (String × List (List Val)))
    (h : ∀ sg ∈ wb, findHeaderIdx sg.2 = none) :
    recognizeCoreBlocks wb = ⟨[], []⟩ :=
  recognizeCoreBlocks_empty wb h

/-- Witness for the amended C5 theorem at a two-sheet workbook with no
headers anywhere. -/
theorem c5_witness :
    recognizeCoreBlocks [("A", [[Val.num 3]]), ("B", [[Val.num 4, Val.num 5]])] = ⟨[], []⟩ :=
  c5_empty_silent_amended [("A", [[Val.num 3]]), ("B", [[Val.num 4, Val.num 5]])] (by decide)

/-- Claim C6: the locator picks as header the first row, top to bottom, with
at least 2 non-empty cells all of which are strings, and returns none exactly
when no such row exists. -/
theorem c6_header_first_textual (grid : List (List Val)) :
    ((extractCoreBlock grid).1 = none ↔ ∀ row ∈ grid, qualifiesHeader row = false) ∧
    (∀ blk : CoreBlock, (extractCoreBlock grid).1 = some blk →
      ∃ i, i < grid.length ∧ qualifiesHeader (grid.getD i []) = true ∧
        (∀ j, j < i → qualifiesHeader (grid.getD j []) = false) ∧
        blk.headers = mkHeaders (grid.getD i [])) := by
  cases hf : findHeaderIdx grid with
  | none =>
    refine ⟨⟨fun _ => (findHeaderIdx_none_iff grid).mp hf, fun _ => ?_⟩, fun blk hblk => ?_⟩
    · simp [extractCoreBlock, hf]
    · simp [extractCoreBlock, hf] at hblk
  | some i =>
    obtain ⟨hlen, hq, hbef⟩ := findHeaderIdx_some_spec grid i hf
    have hmem : grid.getD i [] ∈ grid := by
      rw [List.getD_eq_getElem grid [] hlen]
      exact List.getElem_mem hlen
    refine ⟨⟨fun h => ?_, fun hall => ?_⟩, fun blk hblk => ?_⟩
    · simp [extractCoreBlock, hf] at h
    · have hfalse := hall (grid.getD i []) hmem
      rw [hfalse] at hq
      cases hq
    · simp only [extractCoreBlock, hf] at hblk
      refine ⟨i, hlen, hq, hbef, ?_⟩
      rw [← Option.some_inj.mp hblk]

/-- Witness for the C6 theorem at a one-row grid whose row qualifies. -/
theorem c6_witness :
    ∃ i, i < ([[Val.str "a", Val.str "b"]] : List (List Val)).length ∧
      qualifiesHeader ([[Val.str "a", Val.str "b"]].getD i []) = true ∧
      (∀ j, j < i → qualifiesHeader (([[Val.str "a", Val.str "b"]] : List (List Val)).getD j []) = false) ∧
      (CoreBlock.mk ["a", "b"] []).headers = mkHeaders ([[Val.str "a", Val.str "b"]].getD i []) :=
  (c6_header_first_textual [[Val.str "a", Val.str "b"]]).2 ⟨["a", "b"], []⟩ (by decide)

/-- Claim C7: for a wide table with at least 3 columns, at least one location
column, clean location values (nothing missing, nothing zero) and no name
collision between the derived melt column names and the identifier columns,
the reshape output has exactly R times L records for R source rows and L
location columns. -/
theorem c7_melt_cardinality (df : DF) (h3 : 3 ≤ df.cols.length)
    (hlocs : (detectLocationColumns df.cols).2.1 ≠ [])
    (hv1 : ¬ vnameOf (detectLocationColumns df.cols).2.2 ∈ (detectLocationColumns df.cols).1)
    (hv2 : ¬ vnameOf (detectLocationColumns df.cols).2.2 = "Locations")
    (hclean : ∀ r ∈ df.rows, ∀ v ∈ (detectLocationColumns df.cols).2.1,
        getCell df.cols r v ≠ Val.na ∧ getCell df.cols r v ≠ Val.num 0) :
    (transformWideToLong df).rows.length
      = df.rows.length * (detectLocationColumns df.cols).2.1.length := by
  by_cases hne : df.rows = []
  · have hde : dfEmpty df = true := by simp [dfEmpty, hne]
    simp [transformWideToLong, hde, hne]
  · rw [transform_entry df h3 hne hlocs]
    exact transformMelt_len df _ _ _ hv1 hv2
      (fun v hv => loc_not_total hv) (fun v hv => loc_not_sheet hv) hclean

/-- Witness for the C7 theorem at a one-row table with two location columns
and a sheet column. -/
theorem c7_witness :
    (transformWideToLong ⟨["Item", "A", "B", "_sheet"],
        [[Val.str "X", Val.num 1, Val.num 2, Val.str "S"]]⟩).rows.length
      = (DF.mk ["Item", "A", "B", "_sheet"]
          [[Val.str "X", Val.num 1, Val.num 2, Val.str "S"]]).rows.length
        * (detectLocationColumns ["Item", "A", "B", "_sheet"]).2.1.length :=
  c7_melt_cardinality
    ⟨["Item", "A", "B", "_sheet"], [[Val.str "X", Val.num 1, Val.num 2, Val.str "S"]]⟩
    (by decide) (by decide) (by decide) (by decide) (by decide)

/-- Claim C8: the reshape is the identity on tables with fewer than 3 columns
and on tables whose classification finds no location column. -/
theorem c8_identity_passthrough (df : DF)
    (h : df.cols.length < 3 ∨ (detectLocationColumns df.cols).2.1 = []) :
    transformWideToLong df = df := by
  rcases h with h | h
  · simp [transformWideToLong, h]
  · by_cases hde : (dfEmpty df || decide (df.cols.length < 3)) = true
    · simp [transformWideToLong, hde]
    · simp [transformWideToLong, hde, h]

/-- Witness for the C8 theorem at a one-column table. -/
theorem c8_witness :
    (DF.mk ["a"] [] : DF).cols.length < 3 ∧
      transformWideToLong ⟨["a"], []⟩ = ⟨["a"], []⟩ :=
  ⟨by decide, c8_identity_passthrough ⟨["a"], []⟩ (Or.inl (by decide))⟩

/-- Claim C9: the end-to-end reshape of the table with header Item, A, B,
Total Units and rows X 5 0 5 and Y 3 3 6 drops the total column, derives the
value name Units, melts over A and B, drops the zero record, and yields
exactly the three records of the claim. -/
theorem c9_end_to_end :
    transformWideToLong
        ⟨["Item", "A", "B", "Total Units"],
         [[Val.str "X", Val.num 5, Val.num 0, Val.num 5],
          [Val.str "Y", Val.num 3, Val.num 3, Val.num 6]]⟩ =
      ⟨["Item", "Locations", "Units"],
       [[Val.str "X", Val.str "A", Val.num 5],
        [Val.str "Y", Val.str "A", Val.num 3],
        [Val.str "Y", Val.str "B", Val.num 3]]⟩ := by decide

/-- Claim C10: the context label is matched case-insensitively but the stored
key keeps the original spelling of the cell: the cell customer colon Acme
above the header yields the key customer, which is not among the three
canonical labels. -/
theorem c10_context_case :
    (extractCoreBlock
        [[Val.str "customer: Acme"],
         [Val.str "Item", Val.str "A", Val.str "B"],
         [Val.str "X", Val.num 1, Val.num 2]]).2 = [("customer", "Acme")] ∧
    ¬ ("customer" ∈ ctxLabels) := by decide

end Unifier
